import Mathlib

set_option autoImplicit false

/-!
Shallow embedding of the craydate/windup Playdate runtime core, covering the
frame-watcher future, the shared resource handles, the context stack, the
scoped active-font guard, and the synth generator trampolines.
-/

namespace Craydate

/-! ### Frame watcher (src/windup/playdate/src/api.rs) -/

/-- Result of polling a future, mirroring `core::task::Poll`. -/
inductive Poll (α : Type) where
  | ready (value : α)
  | pending
  deriving Repr, DecidableEq

/-- The slice of `CApiState` the frame watcher touches: the frame counter
(`frame_number: Cell<u64>`) and the executor's list of wakers registered via
`Executor::add_waker_for_update_callback` (modelled by its length). -/
structure CApiState where
  frame_number : Nat
  wakers : Nat
  deriving Repr, DecidableEq

/-- A `FrameWatcherFuture` stores the frame number observed at creation
(`seen_frame: u64`). -/
structure FrameWatcherFuture where
  seen_frame : Nat
  deriving Repr, DecidableEq

/-- `FrameWatcher::next_impl`: builds the future with
`seen_frame = state.frame_number.get()`. -/
def FrameWatcher.next_impl (state : CApiState) : FrameWatcherFuture :=
  { seen_frame := state.frame_number }

/-- `FrameWatcherFuture::poll`: reads `frame = state.frame_number.get()`; if
`frame > seen_frame` returns `Ready(frame)`, else registers the context's
waker with the executor and returns `Pending`. -/
def FrameWatcherFuture.poll (fut : FrameWatcherFuture) (state : CApiState) :
    Poll Nat × CApiState :=
  if state.frame_number > fut.seen_frame then
    (.ready state.frame_number, state)
  else
    (.pending, { state with wakers := state.wakers + 1 })

/-- Modelled from the spec: `executor.rs` is not among the sources. Spec §4.1:
`on_hardware_update()` is "invoked by the foreign runtime once per frame;
advances FrameCounter by 1, drains all due Waker registrations (those waiting
on frame advanced), then polls the Task". -/
def on_hardware_update (state : CApiState) : CApiState :=
  { frame_number := state.frame_number + 1, wakers := 0 }

/-! ### Synth parameters and modulators (src/craydate/src/sound/sources/synth.rs) -/

/-- The error type returned by `Synth::set_parameter`, as used there. -/
inductive Error where
  | NotFoundError
  deriving Repr, DecidableEq

/-- `Synth::set_parameter`: calls the foreign `setParameter` exactly once and
maps its `i32` result `r`: `0 => Err(Error::NotFoundError)`, `_ => Ok(())`.
The foreign call's result is the parameter `r`; the source's two-armed match
on `r` (`0` versus catch-all) is the test `r = 0`. -/
def Synth.set_parameter (r : Int) : Except Error Unit :=
  if r = 0 then .error .NotFoundError else .ok ()

/-- A `SynthSignal` handle; `clone()` is a shallow copy sharing the same
underlying signal, so a signal is modelled by its identity. -/
structure SynthSignal where
  id : Nat
  deriving Repr, DecidableEq

/-- The modulator fields of `Synth`: `frequency_modulator`,
`amplitude_modulator`, and `parameter_modulators: BTreeMap<i32, SynthSignal>`
(modelled by its lookup function). -/
structure SynthModulators where
  frequency_modulator : Option SynthSignal
  amplitude_modulator : Option SynthSignal
  parameter_modulators : Int → Option SynthSignal

/-- `Synth::set_parameter_modulator(i, signal)`: after the foreign
`setParameterModulator` call, does
`match signal.cloned: Some s => parameter_modulators.insert(i, s),
None => parameter_modulators.remove(&i)`. Insert and remove in a `BTreeMap`
are pointwise updates of its lookup function at key `i`. -/
def Synth.set_parameter_modulator (s : SynthModulators) (i : Int)
    (signal : Option SynthSignal) : SynthModulators :=
  { s with parameter_modulators := fun j => if j = i then signal else s.parameter_modulators j }

/-- `Synth::parameter_modulator(i)`: `parameter_modulators.get(&i)`. -/
def Synth.parameter_modulator (s : SynthModulators) (i : Int) : Option SynthSignal :=
  s.parameter_modulators i

/-! ### Handle constructors (src/windup/playdate/src/font.rs,
src/craydate/src/sound/signals/envelope.rs,
src/craydate/src/sound/sources/synth.rs)

Raw pointers are modelled as `Nat`, with `0` as the null pointer. The outcome
of running a constructor distinguishes a deterministic panic
(`Option::unwrap` on `NonNull::new(ptr)` returning `None`) from a normally
returned handle. `NonNull::new_unchecked(ptr)` performs no check and wraps
the pointer as given. -/

/-- Outcome of a handle constructor: `fatal` is a deterministic panic/abort,
`ok` is a normally constructed handle. -/
inductive CtorResult (α : Type) where
  | fatal
  | ok (handle : α)
  deriving Repr, DecidableEq

/-- `Font` wraps `font_ptr: NonNull<CLCDFont>`. -/
structure Font where
  font_ptr : Nat
  deriving Repr, DecidableEq

/-- `Font::from_ptr`: wraps the pointer with `NonNull::new_unchecked`, which
does not test for null and never panics; it wraps whatever pointer it is
given. -/
def Font.from_ptr (ptr : Nat) : CtorResult Font :=
  .ok { font_ptr := ptr }

/-- `EnvelopeSubclass` holds `ptr: NonNull<CSynthEnvelope>`; the `Envelope`
handle is modelled by that pointer. -/
structure Envelope where
  ptr : Nat
  deriving Repr, DecidableEq

/-- `Envelope::from_ptr`: builds the subclass with
`NonNull::new(ptr).unwrap()`, which panics (deterministically, fatal) when
the pointer is null. -/
def Envelope.from_ptr (ptr : Nat) : CtorResult Envelope :=
  if ptr = 0 then .fatal else .ok { ptr := ptr }

/-- `Synth` holds `ptr: NonNull<CSynth>` (plus modulator fields that start
empty and do not affect construction). -/
structure SynthHandle where
  ptr : Nat
  deriving Repr, DecidableEq

/-- `Synth::new`: calls the foreign `newSynth()` (its result is the argument
`ptr`) and stores `NonNull::new(ptr).unwrap()`, which panics
(deterministically, fatal) when the pointer is null. -/
def Synth.new (ptr : Nat) : CtorResult SynthHandle :=
  if ptr = 0 then .fatal else .ok { ptr := ptr }

/-! ### Shared envelope handle (src/craydate/src/sound/signals/envelope.rs)

`Envelope::from_ptr` wraps the foreign envelope in an
`Rc<EnvelopeSubclass>`; the `SynthSignal` made from it holds a clone of the
same `Rc`. `EnvelopeSubclass::drop` calls the foreign `freeEnvelope` exactly
when the `Rc` strong count reaches zero. The `Rc` heap cell is modelled by
its strong count together with a count of `freeEnvelope` invocations. -/

/-- State of the reference-counted `EnvelopeSubclass` cell: the number of
live `Rc` owners and the number of times `freeEnvelope` has run. -/
structure RcState where
  strong : Nat
  released : Nat
  deriving Repr, DecidableEq

/-- `Rc::new`: one owner, resource not yet released. -/
def rcNew : RcState := { strong := 1, released := 0 }

/-- An operation on the shared cell: cloning some live owner, or dropping
some live owner. -/
inductive RcOp where
  | clone
  | drop
  deriving Repr, DecidableEq

/-- One step of the `Rc` semantics: `clone` increments the strong count;
`drop` decrements it and, when the last owner is dropped, runs
`EnvelopeSubclass::drop`, which calls `freeEnvelope` once. -/
def RcState.step (s : RcState) : RcOp → RcState
  | .clone => { s with strong := s.strong + 1 }
  | .drop =>
    if s.strong = 1 then { strong := 0, released := s.released + 1 }
    else { s with strong := s.strong - 1 }

/-- Run a sequence of clone/drop operations. -/
def RcState.run (s : RcState) (ops : List RcOp) : RcState :=
  ops.foldl RcState.step s

/-- An operation sequence is valid when every operation acts on a live owner:
the strong count is positive before each step. -/
def RcState.validOps : RcState → List RcOp → Prop
  | _, [] => True
  | s, op :: ops => 0 < s.strong ∧ (s.step op).validOps ops

instance instDecidableValidOps : ∀ (s : RcState) (ops : List RcOp), Decidable (s.validOps ops)
  | _, [] => inferInstanceAs (Decidable True)
  | s, op :: ops =>
    have : Decidable ((s.step op).validOps ops) := instDecidableValidOps (s.step op) ops
    inferInstanceAs (Decidable (_ ∧ _))

/-! ### Generator binding trampolines (src/craydate/src/sound/sources/synth.rs)

`Synth::new_with_generator` boxes the `SynthGenerator` (which itself boxes
the user state) and registers the five `c_*` trampolines with the foreign
runtime. `c_render_func`, `c_note_on_func`, `c_release_func` and
`c_set_parameter_func` only recover the generator pointer and dispatch
through the vtable; `c_dealloc_func` drops the `Box<SynthGenerator>`, whose
`Drop` impl frees the boxed user state. The heap cell is modelled by whether
the allocation is live and how many times the bound state's destructor has
run. -/

/-- The five trampoline entry points registered with `setGenerator`. -/
inductive TrampolineEvent where
  | render
  | noteOn
  | release
  | setParameter
  | dealloc
  deriving Repr, DecidableEq

/-- State of the heap cell holding the `Box<SynthGenerator>` and its boxed
user state. -/
structure GeneratorState where
  alive : Bool
  destructorRuns : Nat
  deriving Repr, DecidableEq

/-- `Synth::new_with_generator` hands `Box::into_raw(Box::new(generator))`
to the foreign runtime: the cell is live, the destructor has not run. -/
def registerGenerator : GeneratorState := { alive := true, destructorRuns := 0 }

/-- Effect of the foreign runtime invoking one trampoline: the four dispatch
trampolines leave the heap cell untouched; `c_dealloc_func` drops the
`Box<SynthGenerator>`, running `SynthGenerator::drop` which frees the user
state. -/
def trampolineStep (s : GeneratorState) : TrampolineEvent → GeneratorState
  | .render => s
  | .noteOn => s
  | .release => s
  | .setParameter => s
  | .dealloc => { alive := false, destructorRuns := s.destructorRuns + 1 }

/-- Run a sequence of trampoline invocations. -/
def trampolineRun (s : GeneratorState) (evs : List TrampolineEvent) : GeneratorState :=
  evs.foldl trampolineStep s

/-! ### Context stack

The `Graphics` methods `push_context`, `push_context_bitmap`, `pop_context`
and `take_popped_context_bitmap` (src/windup/playdate/src/graphics/graphics.rs)
delegate to the `ContextStack` stored in `CApiState` (`capi_state.rs`), which
is not among the sources, so the stack itself is modelled from the spec. -/

/-- An owned bitmap, identified by an opaque value. -/
structure Bitmap where
  val : Nat
  deriving Repr, DecidableEq

/-- Modelled from the spec (`ContextStackEntry`, `capi_state.rs` missing):
"tagged as either `Framebuffer` (no owned resource) or
`OwnedBitmap(id, ResourceHandle<Bitmap>)`". -/
inductive ContextStackEntry where
  | framebuffer
  | ownedBitmap (id : Nat) (bitmap : Bitmap)
  deriving Repr, DecidableEq

/-- The surface receiving drawing calls: the device framebuffer or a pushed
bitmap. -/
inductive DrawTarget where
  | framebuffer
  | bitmap (b : Bitmap)
  deriving Repr, DecidableEq

/-- Modelled from the spec (`ContextStack` in `capi_state.rs` missing):
the ordered stack of entries above the implicit base framebuffer entry
(head is the top), the popped-but-retained owned bitmaps keyed by id, and
the monotonically-assigned next id ("unique for the process lifetime"). -/
structure ContextStack where
  entries : List ContextStackEntry
  popped : List (Nat × Bitmap)
  next_id : Nat
  deriving Repr, DecidableEq

/-- The initial stack: only the implicit base framebuffer entry. -/
def ContextStack.init : ContextStack := { entries := [], popped := [], next_id := 0 }

/-- Modelled from the spec: `push_framebuffer()` "pushes an entry with no
owned resource". -/
def ContextStack.push_framebuffer (s : ContextStack) : ContextStack :=
  { s with entries := .framebuffer :: s.entries }

/-- Modelled from the spec: `push_bitmap(owned_bitmap) -> id` "pushes an
owned-bitmap entry, transferring ownership of the bitmap to the stack entry;
returns a stable `id`", ids being monotonically assigned. -/
def ContextStack.push_bitmap (s : ContextStack) (b : Bitmap) : Nat × ContextStack :=
  (s.next_id,
   { entries := .ownedBitmap s.next_id b :: s.entries,
     popped := s.popped,
     next_id := s.next_id + 1 })

/-- Modelled from the spec: `pop() -> Option<id>` "removes the top entry and
restores drawing to the entry now on top (or the framebuffer if the stack is
empty); returns the `id` if the popped entry owned a bitmap, else none.
Popping an empty stack is a no-op." A popped owned bitmap is retained for
later retrieval by id. -/
def ContextStack.pop (s : ContextStack) : Option Nat × ContextStack :=
  match s.entries with
  | [] => (none, s)
  | .framebuffer :: rest => (none, { s with entries := rest })
  | .ownedBitmap id b :: rest =>
    (some id,
     { entries := rest, popped := (id, b) :: s.popped, next_id := s.next_id })

/-- Modelled from the spec: `take_bitmap(id) -> Option<bitmap>` "retrieves
and removes a previously popped-but-retained owned bitmap by `id`; returns
none if already taken or unknown". -/
def ContextStack.take_bitmap (s : ContextStack) (id : Nat) : Option Bitmap × ContextStack :=
  match s.popped.lookup id with
  | none => (none, s)
  | some b => (some b, { s with popped := s.popped.filter (fun p => p.1 != id) })

/-- The active draw target: the top entry's surface, or the framebuffer when
only the base entry remains ("the base of the stack always conceptually
represents the framebuffer target"). -/
def ContextStack.draw_target (s : ContextStack) : DrawTarget :=
  match s.entries with
  | [] => .framebuffer
  | .framebuffer :: _ => .framebuffer
  | .ownedBitmap _ b :: _ => .bitmap b

/-- Pop `n` times, collecting each pop's result. -/
def ContextStack.popMany : Nat → ContextStack → List (Option Nat) × ContextStack
  | 0, s => ([], s)
  | n + 1, s =>
    (s.pop.1 :: (ContextStack.popMany n s.pop.2).1, (ContextStack.popMany n s.pop.2).2)

/-- Modelled from the spec: auto-unwind at the frame boundary — "any entries
still on the stack beyond the implicit base framebuffer entry are forcibly
popped, and their owned bitmaps become retrievable by `id` exactly as if
popped normally". Forcible popping is popping once per remaining entry. -/
def ContextStack.auto_unwind (s : ContextStack) : ContextStack :=
  (ContextStack.popMany s.entries.length s).2

/-- Push a whole list of owned bitmaps in order. -/
def ContextStack.pushAll (s : ContextStack) (bs : List Bitmap) : ContextStack :=
  bs.foldl (fun t b => (t.push_bitmap b).2) s

/-- The state after N pushes from the initial stack followed by N pops: the
list of pop results paired with the final stack. -/
def pushPopState (bs : List Bitmap) : List (Option Nat) × ContextStack :=
  ContextStack.popMany bs.length (ContextStack.pushAll ContextStack.init bs)

/-- The state after pushing a list of bitmaps and then hitting the
frame-boundary auto-unwind. -/
def unwindState (bs : List Bitmap) : ContextStack :=
  (ContextStack.pushAll ContextStack.init bs).auto_unwind

/-! ### Scoped active font

`Graphics::set_font` (src/windup/playdate/src/graphics/graphics.rs) calls the
foreign `setFont` and returns `ActiveFont::new(font)`; the guard type
`ActiveFont` lives in `active_font.rs`, which is not among the sources, so
its drop behaviour is modelled from the spec. -/

/-- The process-wide active-font state. -/
structure FontState where
  active_font : Option Font
  deriving Repr, DecidableEq

/-- A scoped active-font guard: Modelled from the spec (`active_font.rs`
missing): a `ScopedActivation` "on construction, sets process-wide
active-state to point at R; on destruction ... restores the prior
active-state", with the documented stacking rule "last-constructed wins;
destruction restores the previous value, not a hardcoded default, except for
the outermost guard". The guard records the font it activates and the prior
state it will restore. -/
structure ActiveFont where
  font : Font
  prior : Option Font
  deriving Repr, DecidableEq

/-- `Graphics::set_font`: activates `font` and returns a guard that
remembers the previously active state. -/
def Graphics.set_font (st : FontState) (font : Font) : ActiveFont × FontState :=
  ({ font := font, prior := st.active_font }, { active_font := some font })

/-- Modelled from the spec: dropping the guard restores the prior
active-state (the default, no active font, only for the outermost guard,
whose prior state is the default). -/
def ActiveFont.dropGuard (g : ActiveFont) (_st : FontState) : FontState :=
  { active_font := g.prior }

/-! ## Helper lemmas -/

/-- Validity-preserving runs of the shared cell keep the exactly-once release
invariant: the release count is 1 once the strong count is 0 and 0 before. -/
theorem RcState.run_released_invariant (ops : List RcOp) (s : RcState)
    (hinv : s.released = if s.strong = 0 then 1 else 0)
    (hv : s.validOps ops) :
    (s.run ops).released = if (s.run ops).strong = 0 then 1 else 0 := by
  induction ops generalizing s with
  | nil => simpa [RcState.run] using hinv
  | cons op ops ih =>
    obtain ⟨hpos, hv2⟩ := hv
    have hrel : s.released = 0 := by
      rw [hinv, if_neg (by omega)]
    have hstep : (s.step op).released = if (s.step op).strong = 0 then 1 else 0 := by
      cases op with
      | clone => simp [RcState.step, hrel]
      | drop =>
        by_cases hone : s.strong = 1
        · simp [RcState.step, hone, hrel]
        · have : ¬s.strong - 1 = 0 := by omega
          simp [RcState.step, hone, hrel, this]
    have hrun : s.run (op :: ops) = (s.step op).run ops := rfl
    rw [hrun]
    exact ih (s.step op) hstep hv2

/-- A run of dispatch-only trampoline invocations leaves the generator heap
cell unchanged. -/
theorem trampolineRun_no_dealloc (evs : List TrampolineEvent) (s : GeneratorState)
    (h : ∀ e ∈ evs, e ≠ TrampolineEvent.dealloc) :
    trampolineRun s evs = s := by
  induction evs generalizing s with
  | nil => rfl
  | cons e evs ih =>
    have he : e ≠ TrampolineEvent.dealloc := h e (List.mem_cons_self e evs)
    have hstep : trampolineStep s e = s := by
      cases e <;> first | rfl | exact absurd rfl he
    have : trampolineRun s (e :: evs) = trampolineRun (trampolineStep s e) evs := rfl
    rw [this, hstep]
    exact ih s (fun x hx => h x (List.mem_cons_of_mem e hx))

/-- Pushing a list of bitmaps stacks them (top first in `entries`) with the
consecutive ids starting at the current `next_id`. -/
theorem ContextStack.pushAll_eq (bs : List Bitmap) (s : ContextStack) :
    ContextStack.pushAll s bs =
      { entries := ((List.enumFrom s.next_id bs).map
          (fun p => ContextStackEntry.ownedBitmap p.1 p.2)).reverse ++ s.entries,
        popped := s.popped,
        next_id := s.next_id + bs.length } := by
  induction bs generalizing s with
  | nil => simp [ContextStack.pushAll]
  | cons b bs ih =>
    have h1 : ContextStack.pushAll s (b :: bs) =
        ContextStack.pushAll (s.push_bitmap b).2 bs := rfl
    rw [h1, ih]
    simp only [ContextStack.push_bitmap, List.enumFrom, List.map_cons, List.reverse_cons,
      List.append_assoc, List.singleton_append, ContextStack.mk.injEq, List.length_cons]
    refine ⟨trivial, trivial, by omega⟩

/-- Popping once per entry from a stack of owned-bitmap entries returns their
ids in stack order and retains all the pairs, leaving the stack empty. -/
theorem ContextStack.popMany_owned (pairs : List (Nat × Bitmap)) (s : ContextStack)
    (hs : s.entries = pairs.map (fun p => ContextStackEntry.ownedBitmap p.1 p.2)) :
    ContextStack.popMany pairs.length s =
      (pairs.map (fun p => some p.1),
       { entries := [], popped := pairs.reverse ++ s.popped, next_id := s.next_id }) := by
  induction pairs generalizing s with
  | nil =>
    obtain ⟨es, pp, ni⟩ := s
    simp only [List.map_nil] at hs
    subst hs
    simp [ContextStack.popMany]
  | cons p pairs ih =>
    obtain ⟨es, pp, ni⟩ := s
    simp only [List.map_cons] at hs
    subst hs
    have hpop : ContextStack.pop
        ⟨ContextStackEntry.ownedBitmap p.1 p.2 :: pairs.map
            (fun p => ContextStackEntry.ownedBitmap p.1 p.2), pp, ni⟩ =
        (some p.1, ⟨pairs.map (fun p => ContextStackEntry.ownedBitmap p.1 p.2),
          (p.1, p.2) :: pp, ni⟩) := rfl
    have hrec := ih ⟨pairs.map (fun p => ContextStackEntry.ownedBitmap p.1 p.2),
      (p.1, p.2) :: pp, ni⟩ rfl
    simp only [List.length_cons, ContextStack.popMany, hpop, hrec, List.map_cons,
      List.reverse_cons, List.append_assoc, List.singleton_append, Prod.mk.injEq,
      ContextStack.mk.injEq]

/-- N pushes from the initial stack followed by N pops: the pops return ids
N-1 down to 0 and the final state retains exactly the enumerated bitmaps. -/
theorem ContextStack.pushAll_popMany (bs : List Bitmap) :
    ContextStack.popMany bs.length (ContextStack.pushAll ContextStack.init bs) =
      (bs.enum.reverse.map (fun p => some p.1),
       { entries := [], popped := bs.enum, next_id := bs.length }) := by
  have hpush := ContextStack.pushAll_eq bs ContextStack.init
  have hentries : (ContextStack.pushAll ContextStack.init bs).entries =
      bs.enum.reverse.map (fun p => ContextStackEntry.ownedBitmap p.1 p.2) := by
    rw [hpush]
    simp [List.map_reverse, List.enum, ContextStack.init]
  have hlen : bs.length = bs.enum.reverse.length := by simp [List.enum_length]
  have h := ContextStack.popMany_owned bs.enum.reverse
    (ContextStack.pushAll ContextStack.init bs) hentries
  rw [hlen, h, hpush]
  simp [ContextStack.init, List.enum]

/-- Looking up `n + k` in the enumeration of `bs` starting at `n` yields the
`k`-th element. -/
theorem List.lookup_enumFrom (bs : List Bitmap) :
    ∀ (n k : Nat) (hk : k < bs.length),
      (List.enumFrom n bs).lookup (n + k) = some (bs.get ⟨k, hk⟩) := by
  induction bs with
  | nil => intro n k hk; exact absurd hk (by simp)
  | cons b bs ih =>
    intro n k hk
    cases k with
    | zero => simp [List.enumFrom, List.lookup]
    | succ k =>
      have hne : (n + (k + 1) == n) = false := by
        simp only [beq_eq_false_iff_ne, ne_eq]
        omega
      have hget : (b :: bs).get ⟨k + 1, hk⟩ = bs.get ⟨k, by simpa using hk⟩ := rfl
      have hkey : n + (k + 1) = (n + 1) + k := by omega
      simp only [List.enumFrom, List.lookup, hne, hget]
      rw [hkey]
      exact ih (n + 1) k (by simpa using hk)

/-- Looking up an id at or beyond the end of an enumeration yields none. -/
theorem List.lookup_enumFrom_ge (bs : List Bitmap) :
    ∀ (n id : Nat), n + bs.length ≤ id → (List.enumFrom n bs).lookup id = none := by
  induction bs with
  | nil => intro n id _; rfl
  | cons b bs ih =>
    intro n id h
    have hne : (id == n) = false := by
      simp only [beq_eq_false_iff_ne, ne_eq]
      simp only [List.length_cons] at h
      omega
    simp only [List.enumFrom, List.lookup, hne]
    exact ih (n + 1) id (by simp only [List.length_cons] at h; omega)

/-- After filtering out every pair with key `id`, looking `id` up fails. -/
theorem List.lookup_filter_ne (pairs : List (Nat × Bitmap)) (id : Nat) :
    (pairs.filter (fun p => p.1 != id)).lookup id = none := by
  induction pairs with
  | nil => rfl
  | cons p pairs ih =>
    by_cases hp : p.1 = id
    · simp only [List.filter, hp, bne_self_eq_false]
      exact ih
    · have h1 : (p.1 != id) = true := by simpa using hp
      have h2 : (id == p.1) = false := by
        simp only [beq_eq_false_iff_ne, ne_eq]
        exact fun h => hp h.symm
      simp only [List.filter, h1, List.lookup, h2]
      exact ih

/-- Retrieval from a state whose retained bitmaps are exactly the
enumeration of `bs`: index `k` yields the `k`-th pushed bitmap, taking it a
second time yields none, and ids past the enumeration yield none. -/
theorem ContextStack.take_bitmap_enum (bs : List Bitmap) (s : ContextStack)
    (hs : s.popped = bs.enum) :
    (∀ (k : Nat) (hk : k < bs.length),
      (s.take_bitmap k).1 = some (bs.get ⟨k, hk⟩) ∧
      ((s.take_bitmap k).2.take_bitmap k).1 = none) ∧
    (∀ id : Nat, bs.length ≤ id → (s.take_bitmap id).1 = none) := by
  constructor
  · intro k hk
    have hlook : List.lookup k bs.enum = some (bs.get ⟨k, hk⟩) := by
      have h := List.lookup_enumFrom bs 0 k hk
      simpa [List.enum] using h
    constructor
    · simp only [ContextStack.take_bitmap, hs, hlook]
    · simp only [ContextStack.take_bitmap, hs, hlook, List.lookup_filter_ne]
  · intro id hid
    have hlook : List.lookup id bs.enum = none := by
      have h := List.lookup_enumFrom_ge bs 0 id (by omega)
      simpa [List.enum] using h
    simp only [ContextStack.take_bitmap, hs, hlook]

/-- The length of the stack above the base after pushing `bs` onto the
initial stack is `bs.length`. -/
theorem ContextStack.pushAll_init_length (bs : List Bitmap) :
    (ContextStack.pushAll ContextStack.init bs).entries.length = bs.length := by
  rw [ContextStack.pushAll_eq]
  simp [List.enumFrom_length, ContextStack.init]

/-! ## Claims -/

/-- C1: for a frame-watcher future created with snapshot
`seen_frame = frame_number at creation`: while the counter has not advanced
past the snapshot, polling returns `Pending` and registers a waker; after
one more hardware update callback (which increments the counter by one) the
poll returns `Ready` with the new counter value; and if the counter has
already advanced past the snapshot, the first poll returns `Ready` with the
current counter value immediately, without touching the waker registry. -/
theorem c1_frame_watcher_poll (s0 s : CApiState) :
    (s.frame_number ≤ (FrameWatcher.next_impl s0).seen_frame →
      (FrameWatcher.next_impl s0).poll s =
        (.pending, { s with wakers := s.wakers + 1 })) ∧
    (s.frame_number = (FrameWatcher.next_impl s0).seen_frame →
      (FrameWatcher.next_impl s0).poll (on_hardware_update s) =
        (.ready (s.frame_number + 1), on_hardware_update s)) ∧
    ((FrameWatcher.next_impl s0).seen_frame < s.frame_number →
      (FrameWatcher.next_impl s0).poll s = (.ready s.frame_number, s)) := by
  refine ⟨fun h => ?_, fun h => ?_, fun h => ?_⟩
  · simp only [FrameWatcher.next_impl] at h
    rw [FrameWatcherFuture.poll, if_neg (by simpa [FrameWatcher.next_impl] using by omega)]
  · simp only [FrameWatcher.next_impl] at h
    rw [FrameWatcherFuture.poll, if_pos (by simp [FrameWatcher.next_impl, on_hardware_update]; omega)]
    rfl
  · simp only [FrameWatcher.next_impl] at h
    rw [FrameWatcherFuture.poll, if_pos (by simpa [FrameWatcher.next_impl] using h)]

/-- C1 witness: with the counter at 5 and snapshot 5, polling suspends and
registers a waker, and polling after one hardware update yields 6; with the
counter already at 7, polling yields 7 immediately. -/
theorem c1_frame_watcher_poll_witness :
    (FrameWatcher.next_impl ⟨5, 0⟩).poll ⟨5, 0⟩ = (.pending, ⟨5, 1⟩) ∧
    (FrameWatcher.next_impl ⟨5, 0⟩).poll (on_hardware_update ⟨5, 0⟩) = (.ready 6, ⟨6, 0⟩) ∧
    (FrameWatcher.next_impl ⟨5, 0⟩).poll ⟨7, 1⟩ = (.ready 7, ⟨7, 1⟩) := by
  have h1 := c1_frame_watcher_poll ⟨5, 0⟩ ⟨5, 0⟩
  have h2 := c1_frame_watcher_poll ⟨5, 0⟩ ⟨7, 1⟩
  exact ⟨h1.1 (by decide), h1.2.1 (by decide), h2.2.2 (by decide)⟩

/-- C2: cloning the shared envelope handle and dropping the original leaves
the strong count at 1 with the foreign release not yet invoked; and along
every valid sequence of clones and drops, the release function has run
exactly once when the last owner is dropped and zero times while any owner
remains. -/
theorem c2_shared_handle_release (ops : List RcOp) (hv : rcNew.validOps ops) :
    ((rcNew.run [.clone, .drop]).strong = 1 ∧ (rcNew.run [.clone, .drop]).released = 0) ∧
    (0 < (rcNew.run ops).strong → (rcNew.run ops).released = 0) ∧
    ((rcNew.run ops).strong = 0 → (rcNew.run ops).released = 1) := by
  have hinv : rcNew.released = if rcNew.strong = 0 then 1 else 0 := by decide
  have h := RcState.run_released_invariant ops rcNew hinv hv
  refine ⟨⟨by decide, by decide⟩, fun hpos => ?_, fun hzero => ?_⟩
  · rw [h, if_neg (by omega)]
  · rw [h, if_pos hzero]

/-- C2 witness: the sequence clone, drop, drop is valid from a fresh handle
and ends with no owners and exactly one release. -/
theorem c2_shared_handle_release_witness :
    rcNew.validOps [.clone, .drop, .drop] ∧
    (rcNew.run [.clone, .drop, .drop]).strong = 0 ∧
    (rcNew.run [.clone, .drop, .drop]).released = 1 := by
  have h := c2_shared_handle_release [.clone, .drop, .drop] (by decide)
  exact ⟨by decide, by decide, h.2.2 (by decide)⟩

/-- C3 counterexample: `Font::from_ptr` applied to the null pointer does not
terminate fatally — `NonNull::new_unchecked` performs no null check, so the
constructor returns a handle wrapping null instead of panicking. -/
theorem c3_font_null_counterexample :
    Font.from_ptr 0 = .ok { font_ptr := 0 } ∧ Font.from_ptr 0 ≠ .fatal := by
  decide

/-- C3 (amended): `Envelope::from_ptr` and `Synth::new` terminate fatally
(a deterministic panic via `NonNull::new(ptr).unwrap()`) when handed a null
pointer and construct a handle otherwise, while `Font::from_ptr` performs no
null check at all (`NonNull::new_unchecked`) and wraps whatever pointer it
is given, null included. -/
theorem c3_null_pointer_constructors (ptr : Nat) :
    Envelope.from_ptr 0 = .fatal ∧ Synth.new 0 = .fatal ∧
    (ptr ≠ 0 →
      Envelope.from_ptr ptr = .ok { ptr := ptr } ∧ Synth.new ptr = .ok { ptr := ptr }) ∧
    Font.from_ptr ptr = .ok { font_ptr := ptr } := by
  refine ⟨rfl, rfl, fun h => ⟨?_, ?_⟩, rfl⟩
  · rw [Envelope.from_ptr, if_neg h]
  · rw [Synth.new, if_neg h]

/-- C3 witness: at the non-null pointer 7, both checked constructors return
handles, and `Font::from_ptr` wraps it unchecked. -/
theorem c3_null_pointer_constructors_witness :
    Envelope.from_ptr 0 = .fatal ∧ Synth.new 0 = .fatal ∧
    (Envelope.from_ptr 7 = .ok { ptr := 7 } ∧ Synth.new 7 = .ok { ptr := 7 }) ∧
    Font.from_ptr 7 = .ok { font_ptr := 7 } := by
  have h := c3_null_pointer_constructors 7
  exact ⟨h.1, h.2.1, h.2.2.1 (by decide), h.2.2.2⟩

/-- C7: activating font F1, then F2 without dropping the first guard, leaves
F2 active; dropping the F2 guard restores F1; dropping the F1 guard restores
the default of no active font. -/
theorem c7_font_guard_stacking (f1 f2 : Font) :
    ((Graphics.set_font { active_font := none } f1).2).active_font = some f1 ∧
    ((Graphics.set_font (Graphics.set_font { active_font := none } f1).2 f2).2).active_font
      = some f2 ∧
    (((Graphics.set_font (Graphics.set_font { active_font := none } f1).2 f2).1).dropGuard
        (Graphics.set_font (Graphics.set_font { active_font := none } f1).2 f2).2).active_font
      = some f1 ∧
    (((Graphics.set_font { active_font := none } f1).1).dropGuard
        (((Graphics.set_font (Graphics.set_font { active_font := none } f1).2 f2).1).dropGuard
          (Graphics.set_font (Graphics.set_font { active_font := none } f1).2 f2).2)).active_font
      = none :=
  ⟨rfl, rfl, rfl, rfl⟩

/-- C8: `Synth::set_parameter` returns the typed `Error::NotFoundError`
exactly when the foreign `setParameter` call reports failure by returning 0,
and returns `Ok(())` for every other foreign result; the single foreign
result fully determines the returned value. -/
theorem c8_set_parameter_error (r : Int) :
    (Synth.set_parameter r = .error .NotFoundError ↔ r = 0) ∧
    (r ≠ 0 → Synth.set_parameter r = .ok ()) := by
  constructor
  · constructor
    · intro h
      by_contra hne
      rw [Synth.set_parameter, if_neg hne] at h
      exact Except.noConfusion h
    · intro h
      rw [Synth.set_parameter, if_pos h]
  · intro h
    rw [Synth.set_parameter, if_neg h]

/-- C8 witness: the foreign results 0 and 1 map to the error and to
success respectively. -/
theorem c8_set_parameter_error_witness :
    Synth.set_parameter 0 = .error .NotFoundError ∧ Synth.set_parameter 1 = .ok () := by
  have h0 := c8_set_parameter_error 0
  have h1 := c8_set_parameter_error 1
  exact ⟨h0.1.mpr rfl, h1.2 (by decide)⟩

/-- C9: once a generator is registered, any run of dispatch-only trampoline
invocations (render, note-on, release, set-parameter) leaves the heap cell
live with the bound state's destructor never run, and such a run followed by
exactly one dealloc invocation leaves the destructor run exactly once. -/
theorem c9_dealloc_exactly_once (evs : List TrampolineEvent)
    (h : ∀ e ∈ evs, e ≠ TrampolineEvent.dealloc) :
    trampolineRun registerGenerator evs = registerGenerator ∧
    (trampolineRun registerGenerator evs).alive = true ∧
    (trampolineRun registerGenerator evs).destructorRuns = 0 ∧
    trampolineRun registerGenerator (evs ++ [.dealloc]) =
      { alive := false, destructorRuns := 1 } := by
  have hid := trampolineRun_no_dealloc evs registerGenerator h
  refine ⟨hid, by rw [hid]; rfl, by rw [hid]; rfl, ?_⟩
  have happ : trampolineRun registerGenerator (evs ++ [.dealloc]) =
      trampolineRun (trampolineRun registerGenerator evs) [.dealloc] := by
    simp [trampolineRun, List.foldl_append]
  rw [happ, hid]
  rfl

/-- C9 witness: after render, note-on, release and set-parameter the state
is untouched, and a following dealloc runs the destructor exactly once. -/
theorem c9_dealloc_exactly_once_witness :
    trampolineRun registerGenerator [.render, .noteOn, .release, .setParameter]
      = registerGenerator ∧
    trampolineRun registerGenerator
        [.render, .noteOn, .release, .setParameter, .dealloc] =
      { alive := false, destructorRuns := 1 } := by
  have h := c9_dealloc_exactly_once [.render, .noteOn, .release, .setParameter] (by decide)
  exact ⟨h.1, h.2.2.2⟩

/-- C10: `Synth::set_parameter_modulator(i, signal)` leaves the modulator
map changed only at index `i`: afterwards `parameter_modulator(i)` returns
the (shallow-cloned) signal, every other index reads as before, and the
frequency and amplitude modulators are untouched. -/
theorem c10_set_parameter_modulator_frame (s : SynthModulators) (i : Int)
    (sig : Option SynthSignal) :
    Synth.parameter_modulator (Synth.set_parameter_modulator s i sig) i = sig ∧
    (∀ j : Int, j ≠ i →
      Synth.parameter_modulator (Synth.set_parameter_modulator s i sig) j =
        Synth.parameter_modulator s j) ∧
    (Synth.set_parameter_modulator s i sig).frequency_modulator = s.frequency_modulator ∧
    (Synth.set_parameter_modulator s i sig).amplitude_modulator = s.amplitude_modulator := by
  refine ⟨?_, fun j hj => ?_, rfl, rfl⟩
  · simp [Synth.parameter_modulator, Synth.set_parameter_modulator]
  · simp [Synth.parameter_modulator, Synth.set_parameter_modulator, hj]

/-- C10 witness: installing a modulator at index 2 over an empty map reads
back at 2, leaves index 3 empty, and keeps the frequency and amplitude
modulators as they were. -/
theorem c10_set_parameter_modulator_frame_witness :
    Synth.parameter_modulator
      (Synth.set_parameter_modulator
        { frequency_modulator := none, amplitude_modulator := some ⟨1⟩,
          parameter_modulators := fun _ => none } 2 (some ⟨7⟩)) 2 = some ⟨7⟩ ∧
    Synth.parameter_modulator
      (Synth.set_parameter_modulator
        { frequency_modulator := none, amplitude_modulator := some ⟨1⟩,
          parameter_modulators := fun _ => none } 2 (some ⟨7⟩)) 3 = none ∧
    (Synth.set_parameter_modulator
        { frequency_modulator := none, amplitude_modulator := some ⟨1⟩,
          parameter_modulators := fun _ => none } 2 (some ⟨7⟩)).frequency_modulator = none ∧
    (Synth.set_parameter_modulator
        { frequency_modulator := none, amplitude_modulator := some ⟨1⟩,
          parameter_modulators := fun _ => none } 2 (some ⟨7⟩)).amplitude_modulator
      = some ⟨1⟩ := by
  have h := c10_set_parameter_modulator_frame
    { frequency_modulator := none, amplitude_modulator := some ⟨1⟩,
      parameter_modulators := fun _ => none } 2 (some ⟨7⟩)
  exact ⟨h.1, h.2.1 3 (by decide), h.2.2.1, h.2.2.2⟩

/-- C4: pushing N bitmaps and then popping N times returns the assigned ids
(none missing, all distinct, newest first), and on the resulting state
`take_bitmap k` returns exactly the bitmap pushed under id `k` once — a
second take of the same id, or a take of an id never assigned, returns
none. -/
theorem c4_push_pop_take (bs : List Bitmap) :
    (pushPopState bs).1 = bs.enum.reverse.map (fun p => some p.1) ∧
    (pushPopState bs).1.Nodup ∧
    (∀ e ∈ (pushPopState bs).1, e.isSome = true) ∧
    (∀ (k : Nat) (hk : k < bs.length),
      ((pushPopState bs).2.take_bitmap k).1 = some (bs.get ⟨k, hk⟩) ∧
      (((pushPopState bs).2.take_bitmap k).2.take_bitmap k).1 = none) ∧
    (∀ id : Nat, bs.length ≤ id → ((pushPopState bs).2.take_bitmap id).1 = none) := by
  have hmain := ContextStack.pushAll_popMany bs
  have hfst : (pushPopState bs).1 = bs.enum.reverse.map (fun p => some p.1) := by
    rw [pushPopState, hmain]
  have hsnd : (pushPopState bs).2 =
      { entries := [], popped := bs.enum, next_id := bs.length } := by
    rw [pushPopState, hmain]
  have hids : bs.enum.reverse.map (fun p => some p.1) =
      ((List.range bs.length).reverse).map some := by
    rw [← List.enum_map_fst bs, ← List.map_reverse, List.map_map]
    rfl
  have htake := ContextStack.take_bitmap_enum bs (pushPopState bs).2 (by rw [hsnd])
  refine ⟨hfst, ?_, ?_, htake.1, htake.2⟩
  · rw [hfst, hids]
    exact (List.nodup_reverse.mpr (List.nodup_range bs.length)).map (Option.some_injective Nat)
  · intro e he
    rw [hfst] at he
    simp only [List.mem_map] at he
    obtain ⟨p, _, rfl⟩ := he
    rfl

/-- C4 witness: with two pushed bitmaps the pops return ids 1 then 0, id 0
retrieves the first bitmap exactly once, and id 5 was never assigned. -/
theorem c4_push_pop_take_witness :
    (pushPopState [⟨10⟩, ⟨20⟩]).1 = [some 1, some 0] ∧
    ((pushPopState [⟨10⟩, ⟨20⟩]).2.take_bitmap 0).1 = some ⟨10⟩ ∧
    (((pushPopState [⟨10⟩, ⟨20⟩]).2.take_bitmap 0).2.take_bitmap 0).1 = none ∧
    ((pushPopState [⟨10⟩, ⟨20⟩]).2.take_bitmap 5).1 = none := by
  have h := c4_push_pop_take [⟨10⟩, ⟨20⟩]
  exact ⟨h.1.trans (by decide), (h.2.2.2.1 0 (by decide)).1, (h.2.2.2.1 0 (by decide)).2,
    h.2.2.2.2 5 (by decide)⟩

/-- C5: the frame-boundary auto-unwind of a stack with K owned-bitmap
entries above the base pops them all — the stack afterwards holds only the
implicit base framebuffer entry (drawing targets the framebuffer) and each
of the K bitmaps is retrievable by its id exactly as if popped normally,
exactly once. -/
theorem c5_auto_unwind_retrievable (bs : List Bitmap) :
    (unwindState bs).entries = [] ∧
    (unwindState bs).draw_target = .framebuffer ∧
    (∀ (k : Nat) (hk : k < bs.length),
      ((unwindState bs).take_bitmap k).1 = some (bs.get ⟨k, hk⟩) ∧
      (((unwindState bs).take_bitmap k).2.take_bitmap k).1 = none) := by
  have hu : unwindState bs = (pushPopState bs).2 := by
    rw [unwindState, ContextStack.auto_unwind, ContextStack.pushAll_init_length, pushPopState]
  have hmain := ContextStack.pushAll_popMany bs
  have hsnd : (pushPopState bs).2 =
      { entries := [], popped := bs.enum, next_id := bs.length } := by
    rw [pushPopState, hmain]
  have hstate : unwindState bs =
      { entries := [], popped := bs.enum, next_id := bs.length } := hu.trans hsnd
  have htake := ContextStack.take_bitmap_enum bs (unwindState bs) (by rw [hstate])
  refine ⟨by rw [hstate], by rw [hstate]; rfl, htake.1⟩

/-- C5 witness: a single pushed bitmap is retrievable exactly once after the
auto-unwind, which leaves only the base entry. -/
theorem c5_auto_unwind_retrievable_witness :
    (unwindState [⟨3⟩]).entries = [] ∧
    (unwindState [⟨3⟩]).draw_target = .framebuffer ∧
    ((unwindState [⟨3⟩]).take_bitmap 0).1 = some ⟨3⟩ ∧
    (((unwindState [⟨3⟩]).take_bitmap 0).2.take_bitmap 0).1 = none := by
  have h := c5_auto_unwind_retrievable [⟨3⟩]
  exact ⟨h.1, h.2.1, (h.2.2 0 (by decide)).1, (h.2.2 0 (by decide)).2⟩

/-- C6: `pop_context` on an empty stack is a no-op returning none with
drawing still targeting the framebuffer; on a non-empty stack it removes the
top entry, the draw target becomes the entry now on top (or the framebuffer
when none remains), and the returned id is present exactly when the popped
entry owned a bitmap. -/
theorem c6_pop_context (s : ContextStack) :
    (s.entries = [] →
      s.pop = (none, s) ∧ s.pop.2.draw_target = .framebuffer ∧
        s.draw_target = .framebuffer) ∧
    (∀ e rest, s.entries = e :: rest →
      s.pop.2.entries = rest ∧
      s.pop.2.draw_target =
        (match rest with
         | [] => DrawTarget.framebuffer
         | ContextStackEntry.framebuffer :: _ => DrawTarget.framebuffer
         | ContextStackEntry.ownedBitmap _ b :: _ => DrawTarget.bitmap b) ∧
      (s.pop.1.isSome = true ↔ ∃ id b, e = ContextStackEntry.ownedBitmap id b)) := by
  obtain ⟨es, pp, ni⟩ := s
  constructor
  · intro h
    simp only at h
    subst h
    exact ⟨rfl, rfl, rfl⟩
  · intro e rest h
    simp only at h
    subst h
    cases e with
    | framebuffer =>
      refine ⟨rfl, ?_, ?_⟩
      · cases rest with
        | nil => rfl
        | cons r rest => cases r <;> rfl
      · simp [ContextStack.pop]
    | ownedBitmap id b =>
      refine ⟨rfl, ?_, ?_⟩
      · cases rest with
        | nil => rfl
        | cons r rest => cases r <;> rfl
      · simp [ContextStack.pop]

/-- C6 witness: popping the empty initial stack is a no-op targeting the
framebuffer; popping a stack whose top owns bitmap 9 under id 4 returns
`some 4` and retargets the framebuffer. -/
theorem c6_pop_context_witness :
    ContextStack.init.pop = (none, ContextStack.init) ∧
    ContextStack.init.pop.2.draw_target = .framebuffer ∧
    (({ entries := [.ownedBitmap 4 ⟨9⟩], popped := [], next_id := 5 } :
        ContextStack).pop.2.entries = [] ∧
      ({ entries := [.ownedBitmap 4 ⟨9⟩], popped := [], next_id := 5 } :
        ContextStack).pop.1.isSome = true) := by
  have h1 := c6_pop_context ContextStack.init
  have h2 := c6_pop_context { entries := [.ownedBitmap 4 ⟨9⟩], popped := [], next_id := 5 }
  refine ⟨(h1.1 rfl).1, (h1.1 rfl).2.1, (h2.2 _ _ rfl).1, ?_⟩
  exact (h2.2 _ _ rfl).2.2.mpr ⟨4, ⟨9⟩, rfl⟩

end Craydate
